import Mathlib

/-!
Verification development for the bdc-backend rate-limiting subsystem.

The definitions below are shallow embeddings of the TypeScript sources:
  * `src/middleware/rate-limiter.ts`   — the hand-rolled in-memory middleware,
  * the fixed `WorkersKVStore` adapter — get / increment / decrement over a KV namespace,
  * `src/middleware/standard-rate-limiter.ts` — the widget-aware limit function and
    composite key generator,
  * `phoneValidationRateLimit` — the bypass wrapper of the phone-validation route.

Timestamps are epoch milliseconds modelled as `Nat` (JS `Date.now()`); JS
`Math.ceil(x / 1000)` on a non-negative integer is `(x + 999) / 1000`, and
`Math.floor(x / 1000)` is Nat division.  Header maps are modelled field by
field; a JS in-memory object keyed by strings is a function
`String → Option _` with pointwise update.
-/

/-- JS `Math.ceil(n / 1000)` for a non-negative integer number of milliseconds. -/
def msCeilToSec (n : Nat) : Nat := (n + 999) / 1000

/-- JS string truthiness fallback `a || b` where `a` may be `undefined`:
the empty string is falsy. -/
def jsOrStr (a : Option String) (b : String) : String :=
  match a with
  | some s => if s = "" then b else s
  | none => b

/-- Does the pattern match at the head of the character list? -/
def leadMatch : List Char → List Char → Bool
  | [], _ => true
  | _ :: _, [] => false
  | p :: ps, c :: cs => p = c && leadMatch ps cs

/-- Does the pattern occur anywhere inside the character list? -/
def subMatch : List Char → List Char → Bool
  | pat, [] => leadMatch pat []
  | pat, c :: cs => leadMatch pat (c :: cs) || subMatch pat cs

/-- JS `s.includes(pat)`: substring containment. -/
def strIncludes (s pat : String) : Bool := subMatch pat.toList s.toList

/-- ASCII lower-casing of one character (the bot pattern and its subjects are ASCII). -/
def asciiLower (c : Char) : Char :=
  if ('A' ≤ c && c ≤ 'Z') = true then Char.ofNat (c.toNat + 32) else c

/-- ASCII lower-casing of a string, modelling the `/i` regex flag. -/
def lowerStr (s : String) : String := String.mk (s.toList.map asciiLower)

/-! ## Hand-rolled middleware (`src/middleware/rate-limiter.ts`) -/

/-- One entry of the in-memory `RateLimitStore`: `{count, resetTime}`. -/
structure RLRecord where
  count : Nat
  resetTime : Nat
deriving DecidableEq

/-- The in-memory store object: a mapping from keys to records. -/
abbrev RateLimitStore := String → Option RLRecord

/-- Assignment / deletion of one key of the store object. -/
def setStore (s : RateLimitStore) (k : String) (v : Option RLRecord) : RateLimitStore :=
  fun k2 => if k2 = k then v else s k2

/-- Outcome of the downstream handler `next()`: the response status visible in
`c.res.status` afterwards, and whether `next()` threw. -/
structure HandlerResult where
  status : Nat
  threw : Bool
deriving DecidableEq

/-- The 429 response built on rejection: status, JSON body fields
(`error`, `retryAfter`, `limit`, `windowMs`) and the four headers. -/
structure RejectResponse where
  status : Nat
  error : String
  retryAfter : Nat
  limitBody : Nat
  windowMsBody : Nat
  retryAfterHeader : String
  limitHeader : String
  remainingHeader : String
  resetHeader : String
deriving DecidableEq

/-- What the middleware does with one request: reject with a 429 response,
admit and set the three `X-RateLimit-*` headers, or propagate the downstream
error (in which case the header-setting lines are never reached). -/
inductive RLOutcome where
  | rejected (r : RejectResponse)
  | admitted (limitHeader remainingHeader resetHeader : String)
  | errored
deriving DecidableEq

def RLOutcome.isAdmitted : RLOutcome → Bool
  | .admitted _ _ _ => true
  | _ => false

def RLOutcome.isRejected : RLOutcome → Bool
  | .rejected _ => true
  | _ => false

def RLOutcome.statusOf : RLOutcome → Option Nat
  | .rejected r => some r.status
  | _ => none

def RLOutcome.remainingOf : RLOutcome → Option String
  | .rejected r => some r.remainingHeader
  | .admitted _ rem _ => some rem
  | .errored => none

def RLOutcome.bodyWindowMs : RLOutcome → Option Nat
  | .rejected r => some r.windowMsBody
  | _ => none

/-- Lines 45–47: `if (store[key] && now > store[key].resetTime) delete store[key]`. -/
def cleanupExpired (s : RateLimitStore) (key : String) (now : Nat) : RateLimitStore :=
  match s key with
  | some r => if r.resetTime < now then setStore s key none else s
  | none => s

/-- Lines 50–55: `if (!store[key]) store[key] = {count: 0, resetTime: now + windowMs}`. -/
def ensureRecord (s : RateLimitStore) (key : String) (now windowMs : Nat) : RateLimitStore :=
  match s key with
  | none => setStore s key (some { count := 0, resetTime := now + windowMs })
  | some _ => s

/-- The request-handling closure returned by `rateLimiter(options)`
(lines 40–114 of `rate-limiter.ts`), for one request at time `now` with a
computed `key`, given the downstream handler's observable behaviour.
Returns the outcome and the store as left after the request. -/
def rateLimiterStep (windowMs maxReq : Nat)
    (skipSuccessfulRequests skipFailedRequests : Bool)
    (key : String) (now : Nat) (handler : HandlerResult)
    (store : RateLimitStore) : RLOutcome × RateLimitStore :=
  let store2 := ensureRecord (cleanupExpired store key now) key now windowMs
  let record := (store2 key).getD { count := 0, resetTime := now + windowMs }
  if maxReq ≤ record.count then
    (RLOutcome.rejected {
      status := 429
      error := "Rate limit exceeded"
      retryAfter := msCeilToSec (record.resetTime - now)
      limitBody := maxReq
      windowMsBody := windowMs / 1000
      retryAfterHeader := toString (msCeilToSec (record.resetTime - now))
      limitHeader := toString maxReq
      remainingHeader := "0"
      resetHeader := toString (msCeilToSec record.resetTime) }, store2)
  else
    let afterInc : RLRecord := { record with count := record.count + 1 }
    if handler.threw then
      let afterAcc : RLRecord :=
        if skipFailedRequests = true ∧ 400 ≤ handler.status then
          { afterInc with count := afterInc.count - 1 }
        else afterInc
      (RLOutcome.errored, setStore store2 key (some afterAcc))
    else
      let afterAcc : RLRecord :=
        if skipSuccessfulRequests = true ∧ handler.status < 400 then
          { afterInc with count := afterInc.count - 1 }
        else afterInc
      (RLOutcome.admitted (toString maxReq)
        (toString (maxReq - afterAcc.count))
        (toString (msCeilToSec afterAcc.resetTime)),
       setStore store2 key (some afterAcc))

/-- Sequential requests 0,…,n−1 for one fixed key, request `i` arriving at
time `t i`, each forwarded to a non-throwing downstream handler (status 200),
with both skip options at their defaults (false).  Starts from the empty
store created by `rateLimiter(options)`. -/
def runRequests (windowMs maxReq : Nat) (key : String) (t : Nat → Nat) :
    Nat → RateLimitStore
  | 0 => fun _ => none
  | n + 1 =>
    (rateLimiterStep windowMs maxReq false false key (t n) ⟨200, false⟩
      (runRequests windowMs maxReq key t n)).2

/-- Outcome of the `n`-th request (1-indexed) in the sequential run. -/
def nthRequestOutcome (windowMs maxReq : Nat) (key : String) (t : Nat → Nat)
    (n : Nat) : RLOutcome :=
  (rateLimiterStep windowMs maxReq false false key (t (n - 1)) ⟨200, false⟩
    (runRequests windowMs maxReq key t (n - 1))).1

/-- A concrete store holding a live record for key `k`: 3 prior requests,
window closing at 5000 ms. -/
def sLive : RateLimitStore :=
  fun k => if k = "k" then some { count := 3, resetTime := 5000 } else none

/-! ## Fixed `WorkersKVStore` adapter (unnamed source part, lines 17–129) -/

/-- The JSON payload persisted per key: `{totalHits, resetTime?}`.
`resetTime` is a JS `Date`, modelled by its epoch-millisecond value;
it is optional in the TypeScript interface. -/
structure StoredData where
  totalHits : Nat
  resetTime : Option Nat
deriving DecidableEq

/-- The KV namespace binding, restricted to the values this adapter stores. -/
abbrev KVData := String → Option StoredData

/-- `namespace.put(key, JSON.stringify(v), …)` as a pointwise update. -/
def kvPut (ns : KVData) (k : String) (v : StoredData) : KVData :=
  fun k2 => if k2 = k then some v else ns k2

/-- `WorkersKVStore.get` (lines 48–58): reads the stored JSON and converts
`resetTime` back to a `Date`; returns `undefined` only when nothing is stored. -/
def workersKV_get (ns : KVData) (key : String) : Option StoredData :=
  match ns key with
  | some stored => some { totalHits := stored.totalHits, resetTime := stored.resetTime }
  | none => none

/-- `WorkersKVStore.increment` (lines 60–99).  Returns the resulting record,
the expiration (epoch seconds) passed to `namespace.put`, and the namespace
after the put. -/
def workersKV_increment (windowMs now : Nat) (ns : KVData) (key : String) :
    StoredData × Nat × KVData :=
  let futureResetTime := now + windowMs
  let data0 : StoredData := { totalHits := 1, resetTime := some futureResetTime }
  let data :=
    match workersKV_get ns key with
    | some existing =>
      match existing.resetTime with
      | some rt =>
        if now < rt then { totalHits := existing.totalHits + 1, resetTime := some rt }
        else data0
      | none => data0
    | none => data0
  let expirationTime := data.resetTime.getD 0
  let safeExpiration := Nat.max expirationTime (now + 60000)
  (data, safeExpiration / 1000, kvPut ns key data)

/-- `WorkersKVStore.decrement` (lines 101–124).  Returns the namespace after
the call and the expiration (epoch seconds) of the re-persisting put, `none`
when the call was a no-op. -/
def workersKV_decrement (now : Nat) (ns : KVData) (key : String) :
    KVData × Option Nat :=
  match workersKV_get ns key with
  | some existing =>
    match existing.resetTime with
    | some rt =>
      if now < rt then
        let data : StoredData :=
          { totalHits := Nat.max 0 (existing.totalHits - 1), resetTime := some rt }
        let safeExpiration := Nat.max rt (now + 60000)
        (kvPut ns key data, some (safeExpiration / 1000))
      else (ns, none)
    | none => (ns, none)
  | none => (ns, none)

/-- A concrete namespace holding, for key `k`, a record whose `resetTime`
(5 ms) is far in the past of any realistic current time. -/
def kvStale : KVData :=
  fun k => if k = "k" then some { totalHits := 3, resetTime := some 5 } else none

/-! ## Widget-aware limit and key generator (`standard-rate-limiter.ts`) -/

/-- The deployment environment tier. -/
inductive Environment where
  | development
  | staging
  | production
deriving DecidableEq

def envStr : Environment → String
  | .development => "development"
  | .staging => "staging"
  | .production => "production"

/-- `referer.includes('biodentalcare.com')`. -/
def isBiodentalcare (referer : String) : Bool :=
  strIncludes referer ("biodentalcare.com")

/-- `/bot|crawler|spider|scraper/i.test(userAgent)`: case-insensitive search
for any of the four alternatives. -/
def isLikelyBot (userAgent : String) : Bool :=
  strIncludes (lowerStr userAgent) ("bot") ||
  strIncludes (lowerStr userAgent) ("crawler") ||
  strIncludes (lowerStr userAgent) ("spider") ||
  strIncludes (lowerStr userAgent) ("scraper")

/-- The `limit` callback of `createStandardWidgetRateLimiter`
(lines 63–84): resolves the ceiling from the environment and the
`Referer` / `User-Agent` headers (absent headers default to `''`). -/
def widgetLimit (environment : Environment) (refererH uaH : Option String) : Nat :=
  let referer := jsOrStr refererH ""
  let userAgent := jsOrStr uaH ""
  let isB := isBiodentalcare referer
  let isBot := isLikelyBot userAgent
  if environment = .development then 500
  else if isB = true ∧ isBot = false then 100
  else if isBot = true then 5
  else 20

/-- `cf-connecting-ip || x-forwarded-for?.split(',')[0] || 'unknown'`
(lines 87–89). -/
def clientIPOf (cfIP xff : Option String) : String :=
  jsOrStr cfIP (jsOrStr (xff.map (fun s => (s.splitOn ",").headD "")) "unknown")

/-- The bot half of the composite key: `isBot ? 'bot' : 'human'`. -/
def botTag (uaH : Option String) : String :=
  if isLikelyBot (jsOrStr uaH "") then "bot" else "human"

/-- The `keyGenerator` callback of `createStandardWidgetRateLimiter`
(lines 86–99).  `parseHostname` models the platform `URL` constructor:
`some hostname` on a parsable absolute URL, `none` when `new URL(referer)`
would throw a `TypeError`.  The generator itself throws in that case,
modelled by `Except.error`. -/
def standardWidgetKeyGenerator (parseHostname : String → Option String)
    (environment : Environment) (cfIP xff refererH uaH : Option String) :
    Except String String :=
  let clientIP := clientIPOf cfIP xff
  let referer := jsOrStr refererH ""
  let domainRes : Except String String :=
    if referer = "" then Except.ok ("direct")
    else
      match parseHostname referer with
      | some h => Except.ok h
      | none => Except.error ("Invalid URL")
  match domainRes with
  | Except.ok refererDomain =>
    Except.ok (envStr environment ++ ":" ++ clientIP ++ ":" ++ refererDomain
      ++ ":" ++ botTag uaH)
  | Except.error e => Except.error e

/-- A concrete stand-in for the platform URL parser: knows one parsable URL
and rejects everything else (as `new URL('not a url')` throws). -/
def urlOracle : String → Option String :=
  fun s => if s = "https://biodentalcare.com/" then some ("biodentalcare.com") else none

/-! ## Bypass wrapper `phoneValidationRateLimit` (unnamed part, lines 162–205) -/

/-- `c.req.url.includes('localhost:5173') || c.req.url.includes('127.0.0.1:5173')`. -/
def isViteDevUrl (url : String) : Bool :=
  strIncludes url ("localhost:5173") || strIncludes url ("127.0.0.1:5173")

/-- How `phoneValidationRateLimit` resolves one request: either `next()` is
called with no metering (bypass, with the logged reason), or the limiter
middleware runs.  The function is total: no constructor represents a raised
error, because every internal failure is caught and turned into a bypass. -/
inductive PVResult where
  | bypassed (reason : String)
  | metered
deriving DecidableEq

def PVResult.isBypassed : PVResult → Bool
  | .bypassed _ => true
  | .metered => false

/-- `phoneValidationRateLimit` (lines 162–205): Vite-dev detection, absent
KV binding, failing KV probe (`RATE_LIMIT_KV.get('test-key')`), then the
limiter, whose own failure is caught by the surrounding try/catch. -/
def phoneValidationRateLimit (url : String) (kvPresent : Bool)
    (kvProbe : Except String Unit) (limiter : Except String Unit) : PVResult :=
  if isViteDevUrl url then PVResult.bypassed ("Vite dev mode detected")
  else if kvPresent = false then PVResult.bypassed ("no KV namespace available")
  else
    match kvProbe with
    | Except.error e => PVResult.bypassed ("KV not accessible: " ++ e)
    | Except.ok _ =>
      match limiter with
      | Except.ok _ => PVResult.metered
      | Except.error e => PVResult.bypassed ("error: " ++ e)

/-- A whole sequence of requests through `phoneValidationRateLimit`, each
given as (request url, KV probe result, limiter result). -/
def phoneValidationSeq (reqs : List (String × Except String Unit × Except String Unit))
    (kvPresent : Bool) : List PVResult :=
  reqs.map (fun r => phoneValidationRateLimit r.1 kvPresent r.2.1 r.2.2)

/-! ## Helper lemmas about the hand-rolled middleware step -/

theorem setStore_self (s : RateLimitStore) (k : String) (v : Option RLRecord) :
    setStore s k v k = v := by
  simp [setStore]

theorem cleanupExpired_none {s : RateLimitStore} {key : String} {now : Nat}
    (hs : s key = none) : cleanupExpired s key now = s := by
  simp [cleanupExpired, hs]

theorem cleanupExpired_live {s : RateLimitStore} {key : String} {now : Nat} {r : RLRecord}
    (hs : s key = some r) (h : ¬ r.resetTime < now) : cleanupExpired s key now = s := by
  simp [cleanupExpired, hs, h]

theorem cleanupExpired_exp {s : RateLimitStore} {key : String} {now : Nat} {r : RLRecord}
    (hs : s key = some r) (h : r.resetTime < now) :
    cleanupExpired s key now = setStore s key none := by
  simp [cleanupExpired, hs, h]

theorem ensureRecord_some {s : RateLimitStore} {key : String} {now w : Nat} {r : RLRecord}
    (hs : s key = some r) : ensureRecord s key now w = s := by
  simp [ensureRecord, hs]

theorem ensureRecord_none {s : RateLimitStore} {key : String} {now w : Nat}
    (hs : s key = none) :
    ensureRecord s key now w = setStore s key (some { count := 0, resetTime := now + w }) := by
  simp [ensureRecord, hs]

theorem step_live_rej {w m : Nat} {sS sF : Bool} {key : String} {now : Nat}
    {h : HandlerResult} {s : RateLimitStore} {c R : Nat}
    (hs : s key = some ⟨c, R⟩) (hlive : now ≤ R) (hc : m ≤ c) :
    rateLimiterStep w m sS sF key now h s =
      (RLOutcome.rejected {
        status := 429
        error := "Rate limit exceeded"
        retryAfter := msCeilToSec (R - now)
        limitBody := m
        windowMsBody := w / 1000
        retryAfterHeader := toString (msCeilToSec (R - now))
        limitHeader := toString m
        remainingHeader := "0"
        resetHeader := toString (msCeilToSec R) }, s) := by
  unfold rateLimiterStep
  simp only [cleanupExpired_live hs (Nat.not_lt.mpr hlive), ensureRecord_some hs, hs,
    Option.getD]
  simp [hc]

theorem step_live_noThrow {w m : Nat} {sS sF : Bool} {key : String} {now st : Nat}
    {s : RateLimitStore} {c R : Nat}
    (hs : s key = some ⟨c, R⟩) (hlive : now ≤ R) (hc : c < m) :
    rateLimiterStep w m sS sF key now ⟨st, false⟩ s =
      (RLOutcome.admitted (toString m)
        (toString (m - (if sS = true ∧ st < 400 then c else c + 1)))
        (toString (msCeilToSec R)),
       setStore s key (some ⟨if sS = true ∧ st < 400 then c else c + 1, R⟩)) := by
  unfold rateLimiterStep
  simp only [cleanupExpired_live hs (Nat.not_lt.mpr hlive), ensureRecord_some hs, hs,
    Option.getD]
  by_cases hsk : sS = true ∧ st < 400
  · simp [Nat.not_le.mpr hc, hsk]
  · simp [Nat.not_le.mpr hc, hsk]

theorem step_live_threw {w m : Nat} {sS sF : Bool} {key : String} {now st : Nat}
    {s : RateLimitStore} {c R : Nat}
    (hs : s key = some ⟨c, R⟩) (hlive : now ≤ R) (hc : c < m) :
    rateLimiterStep w m sS sF key now ⟨st, true⟩ s =
      (RLOutcome.errored,
       setStore s key (some ⟨if sF = true ∧ 400 ≤ st then c else c + 1, R⟩)) := by
  unfold rateLimiterStep
  simp only [cleanupExpired_live hs (Nat.not_lt.mpr hlive), ensureRecord_some hs, hs,
    Option.getD]
  by_cases hsk : sF = true ∧ 400 ≤ st
  · simp [Nat.not_le.mpr hc, hsk]
  · simp [Nat.not_le.mpr hc, hsk]

theorem stepAny_none_rej {w m : Nat} {sS sF : Bool} {key : String} {now : Nat}
    {h : HandlerResult} {s : RateLimitStore}
    (hs : s key = none) (hm : m = 0) :
    rateLimiterStep w m sS sF key now h s =
      (RLOutcome.rejected {
        status := 429
        error := "Rate limit exceeded"
        retryAfter := msCeilToSec w
        limitBody := m
        windowMsBody := w / 1000
        retryAfterHeader := toString (msCeilToSec w)
        limitHeader := toString m
        remainingHeader := "0"
        resetHeader := toString (msCeilToSec (now + w)) },
       setStore s key (some { count := 0, resetTime := now + w })) := by
  unfold rateLimiterStep
  simp only [cleanupExpired_none hs, ensureRecord_none hs, setStore_self, Option.getD]
  simp [hm]

theorem stepFF_none_adm {w m : Nat} {key : String} {now st : Nat} {s : RateLimitStore}
    (hs : s key = none) (hm : 1 ≤ m) :
    rateLimiterStep w m false false key now ⟨st, false⟩ s =
      (RLOutcome.admitted (toString m) (toString (m - 1)) (toString (msCeilToSec (now + w))),
       setStore (setStore s key (some { count := 0, resetTime := now + w })) key
         (some ⟨1, now + w⟩)) := by
  unfold rateLimiterStep
  simp only [cleanupExpired_none hs, ensureRecord_none hs, setStore_self, Option.getD]
  have h1 : ¬ m ≤ 0 := by omega
  have h2 : ¬ m = 0 := by omega
  simp [h1, h2]

theorem runRequests_key (windowMs maxReq : Nat) (key : String) (t : Nat → Nat)
    (ht : ∀ j, t j ≤ t 0 + windowMs) :
    ∀ i, 1 ≤ i →
      runRequests windowMs maxReq key t i key =
        some ⟨min i maxReq, t 0 + windowMs⟩ := by
  intro i
  induction i with
  | zero => intro h; omega
  | succ i ih =>
    intro _
    by_cases hi : 1 ≤ i
    · have hkey := ih hi
      show (rateLimiterStep windowMs maxReq false false key (t i) ⟨200, false⟩
        (runRequests windowMs maxReq key t i)).2 key = _
      by_cases hc : min i maxReq < maxReq
      · rw [step_live_noThrow hkey (ht i) hc]
        have hmin : min i maxReq + 1 = min (i + 1) maxReq := by omega
        simp [setStore_self, hmin]
      · have hm : maxReq ≤ min i maxReq := Nat.not_lt.mp hc
        rw [step_live_rej hkey (ht i) hm]
        have hmin : min i maxReq = min (i + 1) maxReq := by omega
        simp [hkey, hmin]
    · have hi0 : i = 0 := by omega
      subst hi0
      show (rateLimiterStep windowMs maxReq false false key (t 0) ⟨200, false⟩
        (runRequests windowMs maxReq key t 0)).2 key = _
      have hs : runRequests windowMs maxReq key t 0 key = none := rfl
      by_cases hm : 1 ≤ maxReq
      · rw [stepFF_none_adm hs hm]
        have hmin : min 1 maxReq = 1 := by omega
        simp [setStore_self, hmin]
      · have hm0 : maxReq = 0 := by omega
        rw [stepAny_none_rej hs hm0]
        subst hm0
        simp [setStore_self]

theorem nth_outcome_spec (windowMs maxReq : Nat) (key : String) (t : Nat → Nat)
    (ht : ∀ j, t j ≤ t 0 + windowMs) (n : Nat) (hn : 1 ≤ n) :
    nthRequestOutcome windowMs maxReq key t n =
      if n ≤ maxReq then
        RLOutcome.admitted (toString maxReq) (toString (maxReq - n))
          (toString (msCeilToSec (t 0 + windowMs)))
      else
        RLOutcome.rejected {
          status := 429
          error := "Rate limit exceeded"
          retryAfter := msCeilToSec (t 0 + windowMs - t (n - 1))
          limitBody := maxReq
          windowMsBody := windowMs / 1000
          retryAfterHeader := toString (msCeilToSec (t 0 + windowMs - t (n - 1)))
          limitHeader := toString maxReq
          remainingHeader := "0"
          resetHeader := toString (msCeilToSec (t 0 + windowMs)) } := by
  unfold nthRequestOutcome
  by_cases h2 : 2 ≤ n
  · have hkey := runRequests_key windowMs maxReq key t ht (n - 1) (by omega)
    by_cases hnm : n ≤ maxReq
    · have hc : min (n - 1) maxReq < maxReq := by omega
      rw [step_live_noThrow hkey (ht (n - 1)) hc]
      have harith : maxReq - (min (n - 1) maxReq + 1) = maxReq - n := by omega
      simp [hnm, harith]
    · have hcge : maxReq ≤ min (n - 1) maxReq := by omega
      rw [step_live_rej hkey (ht (n - 1)) hcge]
      simp [hnm]
  · have hn1 : n = 1 := by omega
    subst hn1
    have hs : runRequests windowMs maxReq key t 0 key = none := rfl
    by_cases hm : 1 ≤ maxReq
    · rw [stepFF_none_adm hs hm]
      simp [hm]
    · have hm0 : maxReq = 0 := by omega
      rw [stepAny_none_rej hs hm0]
      subst hm0
      simp

/-- C1: for the hand-rolled rate limiter with limit L (`maxReq`) and a fixed
key within one window (no expiry: every request time stays at or before the
window end set by the first request), the n-th sequential request is admitted
iff n ≤ L; the (L+1)-th is rejected with status 429 and
`X-RateLimit-Remaining: 0`; the L-th is admitted and carries
`X-RateLimit-Remaining: 0` after the increment; the (L-1)-th is admitted with
`X-RateLimit-Remaining: 1`. -/
theorem rateLimiter_sequential_admission (windowMs maxReq : Nat) (key : String)
    (t : Nat → Nat) (ht : ∀ j, t j ≤ t 0 + windowMs) :
    (∀ n, 1 ≤ n →
      ((nthRequestOutcome windowMs maxReq key t n).isAdmitted = true ↔ n ≤ maxReq))
    ∧ (nthRequestOutcome windowMs maxReq key t (maxReq + 1)).isRejected = true
    ∧ (nthRequestOutcome windowMs maxReq key t (maxReq + 1)).statusOf = some 429
    ∧ (nthRequestOutcome windowMs maxReq key t (maxReq + 1)).remainingOf = some "0"
    ∧ (1 ≤ maxReq →
        (nthRequestOutcome windowMs maxReq key t maxReq).isAdmitted = true
        ∧ (nthRequestOutcome windowMs maxReq key t maxReq).remainingOf = some "0")
    ∧ (2 ≤ maxReq →
        (nthRequestOutcome windowMs maxReq key t (maxReq - 1)).isAdmitted = true
        ∧ (nthRequestOutcome windowMs maxReq key t (maxReq - 1)).remainingOf = some "1") := by
  refine ⟨?_, ?_, ?_, ?_, ?_, ?_⟩
  · intro n hn
    rw [nth_outcome_spec windowMs maxReq key t ht n hn]
    by_cases hnm : n ≤ maxReq
    · simp [hnm, RLOutcome.isAdmitted]
    · simp [hnm, RLOutcome.isAdmitted]
  · rw [nth_outcome_spec windowMs maxReq key t ht (maxReq + 1) (by omega)]
    simp [RLOutcome.isRejected]
  · rw [nth_outcome_spec windowMs maxReq key t ht (maxReq + 1) (by omega)]
    simp [RLOutcome.statusOf]
  · rw [nth_outcome_spec windowMs maxReq key t ht (maxReq + 1) (by omega)]
    simp [RLOutcome.remainingOf]
  · intro hm
    rw [nth_outcome_spec windowMs maxReq key t ht maxReq hm]
    have h0 : maxReq - maxReq = 0 := by omega
    have hts : toString (0 : Nat) = "0" := rfl
    simp [RLOutcome.isAdmitted, RLOutcome.remainingOf, h0, hts]
  · intro hm
    rw [nth_outcome_spec windowMs maxReq key t ht (maxReq - 1) (by omega)]
    have h1 : maxReq - (maxReq - 1) = 1 := by omega
    have h2 : maxReq - 1 ≤ maxReq := by omega
    have hts : toString (1 : Nat) = "1" := rfl
    simp [RLOutcome.isAdmitted, RLOutcome.remainingOf, h1, h2, hts]

/-- Witness for C1 at L = 2, windowMs = 60000, all requests at time 1000. -/
theorem rateLimiter_sequential_admission_witness :
    (nthRequestOutcome 60000 2 "k" (fun _ => 1000) 3).isRejected = true
    ∧ (nthRequestOutcome 60000 2 "k" (fun _ => 1000) 2).remainingOf = some "0"
    ∧ (nthRequestOutcome 60000 2 "k" (fun _ => 1000) 1).remainingOf = some "1" := by
  have h := rateLimiter_sequential_admission 60000 2 "k" (fun _ => 1000)
    (by intro j; norm_num)
  exact ⟨h.2.1, (h.2.2.2.2.1 (by norm_num)).2, (h.2.2.2.2.2 (by norm_num)).2⟩

/-- C7 (amended): every rejected request produces status 429 with body
`{error, retryAfter, limit, windowMs}` where `retryAfter` is the whole
seconds until `windowEnd` and the `windowMs` field carries the configured
window converted to seconds (`windowMs / 1000`, not milliseconds), and
headers `Retry-After`, `X-RateLimit-Limit`, `X-RateLimit-Remaining: 0`, and
`X-RateLimit-Reset` equal to the window end in epoch seconds.  The record
`r` is the one live after the cleanup / init steps, which characterises
every rejection. -/
theorem rejected_response_fields (windowMs maxReq : Nat) (sS sF : Bool)
    (key : String) (now : Nat) (h : HandlerResult) (s : RateLimitStore)
    (r : RLRecord)
    (hrec : ensureRecord (cleanupExpired s key now) key now windowMs key = some r)
    (hc : maxReq ≤ r.count) :
    (rateLimiterStep windowMs maxReq sS sF key now h s).1 =
      RLOutcome.rejected {
        status := 429
        error := "Rate limit exceeded"
        retryAfter := msCeilToSec (r.resetTime - now)
        limitBody := maxReq
        windowMsBody := windowMs / 1000
        retryAfterHeader := toString (msCeilToSec (r.resetTime - now))
        limitHeader := toString maxReq
        remainingHeader := "0"
        resetHeader := toString (msCeilToSec r.resetTime) } := by
  unfold rateLimiterStep
  simp only [hrec, Option.getD, hc, if_pos]

/-- Witness for C7 at a concrete rejected request: store `sLive` has count 3
against limit 3 at time 1000, window end 5000 ms. -/
theorem rejected_response_fields_witness :
    (rateLimiterStep 60000 3 false false "k" 1000 ⟨200, false⟩ sLive).1 =
      RLOutcome.rejected {
        status := 429, error := "Rate limit exceeded", retryAfter := 4,
        limitBody := 3, windowMsBody := 60, retryAfterHeader := "4",
        limitHeader := "3", remainingHeader := "0", resetHeader := "5" } := by
  have h := rejected_response_fields 60000 3 false false "k" 1000 ⟨200, false⟩ sLive
    { count := 3, resetTime := 5000 } (by decide) (by decide)
  exact h.trans (by decide)

/-- Counterexample for C7 as stated: with configured `windowMs = 60000`
milliseconds, the rejection body's `windowMs` field is 60 (seconds), not the
configured 60000 milliseconds (`rate-limiter.ts` line 70 sends
`windowMs / 1000`). -/
theorem rejected_windowMs_body_in_seconds :
    (rateLimiterStep 60000 3 false false "k" 1000 ⟨200, false⟩ sLive).1.isRejected = true
    ∧ (rateLimiterStep 60000 3 false false "k" 1000 ⟨200, false⟩ sLive).1.bodyWindowMs
        = some 60
    ∧ (60 : Nat) ≠ 60000 := by
  refine ⟨by decide, by decide, by decide⟩

/-- C10 (amended): provided the configured limit is at least 1, a rejected
request leaves the whole store exactly as it was before the request arrived:
the 429 is thrown before any mutation.  (With limit 0 the claim fails: see
the counterexample, where the cleanup / init steps that precede the
admission check do mutate the store.) -/
theorem rejection_preserves_store (windowMs maxReq : Nat) (sS sF : Bool)
    (key : String) (now : Nat) (h : HandlerResult) (s : RateLimitStore)
    (hm : 1 ≤ maxReq)
    (hrej : (rateLimiterStep windowMs maxReq sS sF key now h s).1.isRejected = true) :
    (rateLimiterStep windowMs maxReq sS sF key now h s).2 = s := by
  rcases hsk : s key with _ | r
  · exfalso
    unfold rateLimiterStep at hrej
    simp only [cleanupExpired_none hsk, ensureRecord_none hsk, setStore_self,
      Option.getD] at hrej
    have hnot : ¬ maxReq ≤ 0 := by omega
    rcases h with ⟨st, th⟩
    cases th <;> simp [hnot, RLOutcome.isRejected] at hrej
  · by_cases hexp : r.resetTime < now
    · exfalso
      unfold rateLimiterStep at hrej
      have hnone : setStore s key none key = none := setStore_self s key none
      simp only [cleanupExpired_exp hsk hexp, ensureRecord_none hnone,
        setStore_self, Option.getD] at hrej
      have hnot : ¬ maxReq ≤ 0 := by omega
      rcases h with ⟨st, th⟩
      cases th <;> simp [hnot, RLOutcome.isRejected] at hrej
    · by_cases hcnt : maxReq ≤ r.count
      · rw [step_live_rej hsk (Nat.not_lt.mp hexp) hcnt]
      · exfalso
        have hlt : r.count < maxReq := by omega
        rcases h with ⟨st, th⟩
        cases th
        · rw [step_live_noThrow hsk (Nat.not_lt.mp hexp) hlt] at hrej
          simp [RLOutcome.isRejected] at hrej
        · rw [step_live_threw hsk (Nat.not_lt.mp hexp) hlt] at hrej
          simp [RLOutcome.isRejected] at hrej

/-- Witness for C10 at a concrete rejected request on store `sLive`. -/
theorem rejection_preserves_store_witness :
    (rateLimiterStep 60000 1 false false "k" 1000 ⟨200, false⟩ sLive).2 = sLive :=
  rejection_preserves_store 60000 1 false false "k" 1000 ⟨200, false⟩ sLive
    (by decide) (by decide)

/-- Counterexample for C10 as stated: with limit 0 and an empty store the
request is rejected, yet the store changes — the init step creates the
record `{count: 0, resetTime: now + windowMs}` before the 429 is thrown. -/
theorem rejection_mutates_store_at_zero_limit :
    (rateLimiterStep 60000 0 false false "k" 1000 ⟨200, false⟩
        (fun _ => none)).1.isRejected = true
    ∧ (rateLimiterStep 60000 0 false false "k" 1000 ⟨200, false⟩
        (fun _ => none)).2 "k" = some { count := 0, resetTime := 61000 }
    ∧ (fun _ => none : RateLimitStore) "k" = none := by
  refine ⟨by decide, by decide, rfl⟩

/-- C8 (amended): after the downstream handler completes for an admitted
request (live record with count `c` below the limit): if
`skipSuccessfulRequests` is set, the handler did not throw, and the status is
below 400, the count returns to `c`; if `skipFailedRequests` is set, the
handler threw, and the status at catch time is 400 or above, the count
returns to `c` and the error is propagated after this accounting; in every
other case — including a normally returned response with status ≥ 400 under
`skipFailedRequests`, and a throw with status < 400 — the count stays at its
post-increment value `c + 1`. -/
theorem skip_accounting_spec (windowMs maxReq : Nat) (sS sF : Bool)
    (key : String) (now st : Nat) (threw : Bool) (s : RateLimitStore)
    (c R : Nat) (hs : s key = some ⟨c, R⟩) (hlive : now ≤ R)
    (hc : c < maxReq) :
    (threw = false → sS = true → st < 400 →
      (rateLimiterStep windowMs maxReq sS sF key now ⟨st, threw⟩ s).2 key =
        some ⟨c, R⟩)
    ∧ (threw = true → sF = true → 400 ≤ st →
      (rateLimiterStep windowMs maxReq sS sF key now ⟨st, threw⟩ s).2 key =
        some ⟨c, R⟩
      ∧ (rateLimiterStep windowMs maxReq sS sF key now ⟨st, threw⟩ s).1 =
        RLOutcome.errored)
    ∧ (threw = false → ¬(sS = true ∧ st < 400) →
      (rateLimiterStep windowMs maxReq sS sF key now ⟨st, threw⟩ s).2 key =
        some ⟨c + 1, R⟩)
    ∧ (threw = true → ¬(sF = true ∧ 400 ≤ st) →
      (rateLimiterStep windowMs maxReq sS sF key now ⟨st, threw⟩ s).2 key =
        some ⟨c + 1, R⟩
      ∧ (rateLimiterStep windowMs maxReq sS sF key now ⟨st, threw⟩ s).1 =
        RLOutcome.errored) := by
  refine ⟨?_, ?_, ?_, ?_⟩
  · intro h1 h2 h3
    subst h1
    rw [step_live_noThrow hs hlive hc]
    simp [setStore_self, h2, h3]
  · intro h1 h2 h3
    subst h1
    rw [step_live_threw hs hlive hc]
    simp [setStore_self, h2, h3]
  · intro h1 h2
    subst h1
    rw [step_live_noThrow hs hlive hc]
    simp [setStore_self, h2]
  · intro h1 h2
    subst h1
    rw [step_live_threw hs hlive hc]
    simp [setStore_self, h2]

/-- Witness for C8: with `skipFailedRequests`, a handler that throws while
the response status is 500 gets its increment reverted before propagation. -/
theorem skip_accounting_spec_witness :
    (rateLimiterStep 60000 10 false true "k" 1000 ⟨500, true⟩ sLive).2 "k" =
      some { count := 3, resetTime := 5000 }
    ∧ (rateLimiterStep 60000 10 false true "k" 1000 ⟨500, true⟩ sLive).1 =
      RLOutcome.errored := by
  have h := skip_accounting_spec 60000 10 false true "k" 1000 500 true sLive
    3 5000 (by decide) (by decide) (by decide)
  exact h.2.1 rfl rfl (by decide)

/-- Counterexample for C8 as stated: with `skipFailedRequests` configured and
a downstream handler that returns status 500 without throwing, the claim
requires a decrement (count back to 3), but the code only decrements inside
the catch block, so the count stays at 4. -/
theorem skipFailed_no_decrement_on_returned_error :
    (rateLimiterStep 60000 10 false true "k" 1000 ⟨500, false⟩ sLive).2 "k" =
      some { count := 4, resetTime := 5000 }
    ∧ (4 : Nat) ≠ 3 := by
  refine ⟨by decide, by decide⟩

theorem kvPut_self (ns : KVData) (k : String) (v : StoredData) :
    kvPut ns k v k = some v := by
  simp [kvPut]

theorem workersKV_get_eq (ns : KVData) (key : String) :
    workersKV_get ns key = ns key := by
  cases h : ns key <;> simp [workersKV_get, h]

/-- C2: `WorkersKVStore.increment` either creates `{count: 1, windowEnd:
now + windowMs}` when no record exists or the existing record's `windowEnd`
is at or before `now`, or increments the count by exactly 1 preserving the
existing `windowEnd` when the record is still live; in all cases it persists
the resulting record under the key with an expiration of
`max(windowEnd, now + 60s)` converted to epoch seconds, and returns it. -/
theorem workersKV_increment_spec (windowMs now : Nat) (ns : KVData)
    (key : String) :
    (ns key = none →
      (workersKV_increment windowMs now ns key).1 =
        { totalHits := 1, resetTime := some (now + windowMs) })
    ∧ (∀ d rt, ns key = some d → d.resetTime = some rt →
        (rt ≤ now →
          (workersKV_increment windowMs now ns key).1 =
            { totalHits := 1, resetTime := some (now + windowMs) })
        ∧ (now < rt →
          (workersKV_increment windowMs now ns key).1 =
            { totalHits := d.totalHits + 1, resetTime := some rt }))
    ∧ (∀ rt2, (workersKV_increment windowMs now ns key).1.resetTime = some rt2 →
        (workersKV_increment windowMs now ns key).2.1 =
          Nat.max rt2 (now + 60000) / 1000)
    ∧ (workersKV_increment windowMs now ns key).2.2 key =
        some (workersKV_increment windowMs now ns key).1 := by
  refine ⟨?_, ?_, ?_, ?_⟩
  · intro hns
    simp [workersKV_increment, workersKV_get_eq, hns]
  · intro d rt hns hrt
    constructor
    · intro hle
      have : ¬ now < rt := by omega
      simp [workersKV_increment, workersKV_get_eq, hns, hrt, this]
    · intro hlt
      simp [workersKV_increment, workersKV_get_eq, hns, hrt, hlt]
  · intro rt2 hrt2
    rcases hns : ns key with _ | d
    · simp only [workersKV_increment, workersKV_get_eq, hns,
        Option.some.injEq] at hrt2
      subst hrt2
      simp [workersKV_increment, workersKV_get_eq, hns]
    · rcases hrt : d.resetTime with _ | rt
      · simp only [workersKV_increment, workersKV_get_eq, hns, hrt,
          Option.some.injEq] at hrt2
        subst hrt2
        simp [workersKV_increment, workersKV_get_eq, hns, hrt]
      · by_cases hlt : now < rt
        · simp [workersKV_increment, workersKV_get_eq, hns, hrt, hlt] at hrt2
          subst hrt2
          simp [workersKV_increment, workersKV_get_eq, hns, hrt, hlt]
        · simp [workersKV_increment, workersKV_get_eq, hns, hrt, hlt] at hrt2
          subst hrt2
          simp [workersKV_increment, workersKV_get_eq, hns, hrt, hlt]
  · rcases hns : ns key with _ | d
    · simp [workersKV_increment, workersKV_get_eq, hns, kvPut_self]
    · rcases hrt : d.resetTime with _ | rt
      · simp [workersKV_increment, workersKV_get_eq, hns, hrt, kvPut_self]
      · by_cases hlt : now < rt
        · simp [workersKV_increment, workersKV_get_eq, hns, hrt, hlt, kvPut_self]
        · simp [workersKV_increment, workersKV_get_eq, hns, hrt, hlt, kvPut_self]

/-- Witness for C2: a fresh key at time 1000 with a 2-minute window gets
`{totalHits: 1, resetTime: 121000}`. -/
theorem workersKV_increment_spec_witness :
    (workersKV_increment 120000 1000 (fun _ => none) "k").1 =
      { totalHits := 1, resetTime := some 121000 } :=
  (workersKV_increment_spec 120000 1000 (fun _ => none) "k").1 rfl

/-- Counterexample for C4 as stated: `WorkersKVStore.get` takes no clock and
performs no `windowEnd` check.  For the stored record of `kvStale` the
`windowEnd` is 5 ms — already passed at any realistic current time, for
instance 10 ms — yet `get` returns the record rather than absent. -/
theorem workersKV_get_returns_stale :
    workersKV_get kvStale "k" = some { totalHits := 3, resetTime := some 5 }
    ∧ (5 : Nat) < 10 := by
  refine ⟨by decide, by decide⟩

/-- C4 (amended): `WorkersKVStore.get` returns exactly what is physically
stored, independent of the current time: absent iff nothing is stored, and
otherwise the stored record itself (with `resetTime` converted back to a
date), even when that record's `windowEnd` is arbitrarily far in the past.
Staleness is checked by `increment` and `decrement`, not by `get`. -/
theorem workersKV_get_no_staleness_filter (ns : KVData) (key : String) :
    (workersKV_get ns key = none ↔ ns key = none)
    ∧ (∀ d, ns key = some d →
        workersKV_get ns key =
          some { totalHits := d.totalHits, resetTime := d.resetTime }) := by
  constructor
  · rw [workersKV_get_eq]
  · intro d hd
    rw [workersKV_get_eq, hd]

/-- Witness for C4's amended theorem at the stale concrete store. -/
theorem workersKV_get_no_staleness_filter_witness :
    workersKV_get kvStale "k" = some { totalHits := 3, resetTime := some 5 } := by
  have h := workersKV_get_no_staleness_filter kvStale "k"
  exact h.2 { totalHits := 3, resetTime := some 5 } (by decide)

/-- C6: `WorkersKVStore.decrement` decreases the count by exactly 1 floored
at 0 when a live record exists, re-persisting with the same safety-margined
expiration `max(windowEnd, now + 60s)` in epoch seconds; it is a no-op when
the record is absent, has no `windowEnd`, or is expired.  Counts are
naturals, so the count never goes negative, and decrementing a record with
count 0 leaves it at 0. -/
theorem workersKV_decrement_spec (now : Nat) (ns : KVData) (key : String) :
    (ns key = none → workersKV_decrement now ns key = (ns, none))
    ∧ (∀ d, ns key = some d → d.resetTime = none →
        workersKV_decrement now ns key = (ns, none))
    ∧ (∀ d rt, ns key = some d → d.resetTime = some rt → rt ≤ now →
        workersKV_decrement now ns key = (ns, none))
    ∧ (∀ d rt, ns key = some d → d.resetTime = some rt → now < rt →
        (workersKV_decrement now ns key).1 key =
          some { totalHits := Nat.max 0 (d.totalHits - 1), resetTime := some rt }
        ∧ (workersKV_decrement now ns key).2 =
          some (Nat.max rt (now + 60000) / 1000))
    ∧ (∀ rt, ns key = some { totalHits := 0, resetTime := some rt } → now < rt →
        (workersKV_decrement now ns key).1 key =
          some { totalHits := 0, resetTime := some rt }) := by
  refine ⟨?_, ?_, ?_, ?_, ?_⟩
  · intro hns
    simp [workersKV_decrement, workersKV_get_eq, hns]
  · intro d hns hrt
    simp [workersKV_decrement, workersKV_get_eq, hns, hrt]
  · intro d rt hns hrt hle
    have : ¬ now < rt := by omega
    simp [workersKV_decrement, workersKV_get_eq, hns, hrt, this]
  · intro d rt hns hrt hlt
    constructor
    · simp [workersKV_decrement, workersKV_get_eq, hns, hrt, hlt, kvPut_self]
    · simp [workersKV_decrement, workersKV_get_eq, hns, hrt, hlt]
  · intro rt hns hlt
    simp [workersKV_decrement, workersKV_get_eq, hns, hlt, kvPut_self]

/-- Witness for C6: decrementing a live record with count 0 leaves it at 0. -/
theorem workersKV_decrement_spec_witness :
    (workersKV_decrement 1000
      (fun k => if k = "k" then some { totalHits := 0, resetTime := some 5000 }
        else none) "k").1 "k" =
      some { totalHits := 0, resetTime := some 5000 } := by
  have h := workersKV_decrement_spec 1000
    (fun k => if k = "k" then some { totalHits := 0, resetTime := some 5000 }
      else none) "k"
  exact h.2.2.2.2 5000 (by decide) (by decide)

/-- C3: for every request to the rate-limited route, if the store binding is
absent, the store probe operation fails, or the request comes from the Vite
dev front-end, `phoneValidationRateLimit` forwards the request unmetered.
The function is total into `PVResult`, which has no error constructor, so no
error is ever raised to the caller; a bypassed request never runs the
limiter, hence carries no rate-limit headers.  With the binding absent, any
number of requests are all bypassed. -/
theorem phoneValidation_bypass_policy (url : String) (kvPresent : Bool)
    (kvProbe limiter : Except String Unit)
    (reqs : List (String × Except String Unit × Except String Unit)) :
    (isViteDevUrl url = true ∨ kvPresent = false ∨
        (∃ e, kvProbe = Except.error e) →
      (phoneValidationRateLimit url kvPresent kvProbe limiter).isBypassed = true)
    ∧ (∀ r, r ∈ phoneValidationSeq reqs false → r.isBypassed = true) := by
  constructor
  · intro hcond
    unfold phoneValidationRateLimit
    by_cases hv : isViteDevUrl url = true
    · simp [hv, PVResult.isBypassed]
    · rcases hcond with hc | hc | ⟨e, hc⟩
      · exact absurd hc hv
      · simp [hv, hc, PVResult.isBypassed]
      · by_cases hkv : kvPresent = false
        · simp [hv, hkv, PVResult.isBypassed]
        · simp [hv, hkv, hc, PVResult.isBypassed]
  · intro r hr
    simp only [phoneValidationSeq, List.mem_map] at hr
    obtain ⟨a, _, rfl⟩ := hr
    unfold phoneValidationRateLimit
    by_cases hv : isViteDevUrl a.1 = true
    · simp [hv, PVResult.isBypassed]
    · simp [hv, PVResult.isBypassed]

/-- Witness for C3: with the KV binding absent, a request is bypassed. -/
theorem phoneValidation_bypass_policy_witness :
    (phoneValidationRateLimit "https://api.example.com/x" false
      (Except.ok ()) (Except.ok ())).isBypassed = true :=
  (phoneValidation_bypass_policy "https://api.example.com/x" false
    (Except.ok ()) (Except.ok ()) []).1 (Or.inr (Or.inl rfl))

/-- C5: the widget-aware limit function resolves the ceiling as 500 whenever
the environment is development regardless of classification; otherwise 100
when the Referer contains the trusted front-end domain and the User-Agent
does not match the bot pattern; otherwise 5 when the User-Agent matches the
bot pattern; otherwise 20. -/
theorem widgetLimit_resolution (environment : Environment)
    (refererH uaH : Option String) :
    (environment = Environment.development →
      widgetLimit environment refererH uaH = 500)
    ∧ (environment ≠ Environment.development →
        isBiodentalcare (jsOrStr refererH "") = true →
        isLikelyBot (jsOrStr uaH "") = false →
        widgetLimit environment refererH uaH = 100)
    ∧ (environment ≠ Environment.development →
        isLikelyBot (jsOrStr uaH "") = true →
        widgetLimit environment refererH uaH = 5)
    ∧ (environment ≠ Environment.development →
        isBiodentalcare (jsOrStr refererH "") = false →
        isLikelyBot (jsOrStr uaH "") = false →
        widgetLimit environment refererH uaH = 20) := by
  refine ⟨?_, ?_, ?_, ?_⟩
  · intro hd
    simp [widgetLimit, hd]
  · intro hd hb hbot
    simp [widgetLimit, hd, hb, hbot]
  · intro hd hbot
    simp [widgetLimit, hd, hbot]
  · intro hd hb hbot
    simp [widgetLimit, hd, hb, hbot]

/-- Witness for C5 in production: trusted-referer non-bot gets 100, a bot
gets 5, a generic key gets 20; development always gets 500. -/
theorem widgetLimit_resolution_witness :
    widgetLimit Environment.production (some "https://biodentalcare.com/")
      (some "Mozilla/5.0") = 100
    ∧ widgetLimit Environment.production none (some "Googlebot/2.1") = 5
    ∧ widgetLimit Environment.production none (some "Mozilla/5.0") = 20
    ∧ widgetLimit Environment.development none (some "Googlebot/2.1") = 500 := by
  refine ⟨?_, ?_, ?_, ?_⟩
  · exact (widgetLimit_resolution Environment.production
      (some "https://biodentalcare.com/") (some "Mozilla/5.0")).2.1
      (by decide) (by decide) (by decide)
  · exact (widgetLimit_resolution Environment.production none
      (some "Googlebot/2.1")).2.2.1 (by decide) (by decide)
  · exact (widgetLimit_resolution Environment.production none
      (some "Mozilla/5.0")).2.2.2 (by decide) (by decide) (by decide)
  · exact (widgetLimit_resolution Environment.development none
      (some "Googlebot/2.1")).1 rfl

/-- Counterexample for C9 as stated: a present but unparsable `Referer`
("not a url") does not resolve to the sentinel `direct` — the key generator
throws (`new URL(referer)` raises), rather than producing a key.  `urlOracle`
is a concrete stand-in for the platform URL parser rejecting that string. -/
theorem keyGenerator_throws_on_malformed_referer :
    standardWidgetKeyGenerator urlOracle Environment.production
      (some "1.2.3.4") none (some "not a url") none =
      Except.error ("Invalid URL") := by
  rfl

/-- C9 (amended): a missing `Referer` yields the hostname sentinel `direct`
and a missing `User-Agent` yields the non-bot (`human`) classification, and
the key generator succeeds; a present but unparsable `Referer` instead makes
the key generator throw, and that error is caught by the phone-validation
wrapper, which forwards the request unmetered — so the request is still
never failed, but it bypasses metering rather than being classified as
`direct`. -/
theorem classification_defaults_spec (parseHostname : String → Option String)
    (environment : Environment) (cfIP xff uaH : Option String)
    (url e : String) :
    (standardWidgetKeyGenerator parseHostname environment cfIP xff none uaH =
      Except.ok (envStr environment ++ ":" ++ clientIPOf cfIP xff ++ ":"
        ++ "direct" ++ ":" ++ botTag uaH))
    ∧ botTag none = "human"
    ∧ (∀ r, r ≠ "" → parseHostname r = none →
        standardWidgetKeyGenerator parseHostname environment cfIP xff
          (some r) uaH = Except.error ("Invalid URL"))
    ∧ (isViteDevUrl url = false →
        phoneValidationRateLimit url true (Except.ok ()) (Except.error e) =
          PVResult.bypassed ("error: " ++ e)) := by
  refine ⟨?_, ?_, ?_, ?_⟩
  · simp [standardWidgetKeyGenerator, jsOrStr]
  · rfl
  · intro r hr hp
    simp [standardWidgetKeyGenerator, jsOrStr, hr, hp]
  · intro hv
    simp [phoneValidationRateLimit, hv]

/-- Witness for C9's amended theorem at concrete inputs. -/
theorem classification_defaults_spec_witness :
    standardWidgetKeyGenerator urlOracle Environment.production
      (some "1.2.3.4") none none none =
      Except.ok ("production:1.2.3.4:direct:human")
    ∧ standardWidgetKeyGenerator urlOracle Environment.production
      (some "1.2.3.4") none (some "nonsense") none =
      Except.error ("Invalid URL")
    ∧ phoneValidationRateLimit "https://example.com/api" true
      (Except.ok ()) (Except.error "boom") =
      PVResult.bypassed ("error: " ++ "boom") := by
  have h := classification_defaults_spec urlOracle Environment.production
    (some "1.2.3.4") none none "https://example.com/api" "boom"
  refine ⟨h.1.trans (by rfl), ?_, ?_⟩
  · exact h.2.2.1 "nonsense" (by decide) (by decide)
  · exact h.2.2.2 (by decide)
